import Mathlib

/-!
Verification of the broll-automation matching engine and UI glue.

The repository's core engine (`src/director_graph.py`, `src/agents.py`,
the conflict resolver and timeline assembler) is described by the design
document and the agent prompt files; the matcher/resolver/assembler
definitions below are modelled from that specification.  The frontend
components (`App.jsx`, `WorkflowControl.jsx`, `FileUpload.jsx`) are
embedded directly from their JavaScript source.
-/

namespace Broll

/-- A narrative segment. Modelled from the spec: `{id, start, end, text,
context}` with `start < end`, produced by the upstream segmentation
collaborator (`create_segments.py` is absent from the source tree). -/
structure Segment where
  id : Nat
  start : ℚ
  endTime : ℚ
  text : String
  context : String
deriving DecidableEq, Repr

/-- A captioned image. Modelled from the spec: `{assetId, description}`
pairs materialized by the captioning collaborator before matching. -/
structure Asset where
  id : String
  description : String
deriving DecidableEq, Repr

/-- The Relevance Oracle's per-round verdict: SELECT an asset, REFINE with
a new query, or SKIP. Modelled from the spec and the editor/critic agent
prompts (`verdict: SELECT | REFINE | SKIP`). -/
inductive Verdict where
  | SELECT (assetId : String)
  | REFINE (newQuery : String)
  | SKIP
deriving DecidableEq, Repr

/-- One call to the Relevance Oracle. Modelled from the spec contract
`evaluate(segment, context, candidates, round, forced) -> Verdict`; the
`attempt` field distinguishes the original call (0) from the single retry
(1) that the Matcher performs after a transient failure. -/
structure OracleCall where
  seg : Segment
  query : String
  candidates : List Asset
  round : Nat
  forced : Bool
  attempt : Nat
deriving DecidableEq, Repr

/-- A Relevance Oracle behavior: `none` models a transient failure
(timeout, transport error, unparseable verdict). Modelled from the spec:
the oracle is a pluggable, possibly failing service. -/
def Oracle : Type := OracleCall → Option Verdict

/-- A segment's pre-conflict-resolution outcome. -/
inductive Decision where
  | SELECTED (assetId : String)
  | SKIPPED
deriving DecidableEq, Repr

/-- Modelled from the spec: a Tentative Decision records the outcome, the
number of rounds consumed, and the final query text used. -/
structure TentativeDecision where
  decision : Decision
  rounds : Nat
  finalQuery : String
deriving DecidableEq, Repr

/-- Modelled from the spec: on an oracle failure the Matcher retries that
same round once; `consult` issues attempt 0 and, only if it fails,
attempt 1. -/
def consult (oracle : Oracle) (seg : Segment) (query : String)
    (cands : List Asset) (round : Nat) (forced : Bool) : Option Verdict :=
  match oracle ⟨seg, query, cands, round, forced, 0⟩ with
  | some v => some v
  | none => oracle ⟨seg, query, cands, round, forced, 1⟩

/-- Modelled from the spec: forced-decision mode at the round cap. The
oracle is given the last Candidate Set again; SELECT is honoured only for
a member of that set, SKIP yields SKIPPED, an (invalid) REFINE is
overridden with SELECT of the first candidate in retrieval rank order,
and a twice-failing oracle yields SKIPPED. -/
def forcedDecision (oracle : Oracle) (seg : Segment) (query : String)
    (cands : List Asset) (round : Nat) : TentativeDecision :=
  match consult oracle seg query cands round true with
  | some (Verdict.SELECT a) =>
      if a ∈ cands.map Asset.id then ⟨Decision.SELECTED a, round, query⟩
      else ⟨Decision.SKIPPED, round, query⟩
  | some Verdict.SKIP => ⟨Decision.SKIPPED, round, query⟩
  | some (Verdict.REFINE _) =>
      match cands.head? with
      | some c => ⟨Decision.SELECTED c.id, round, query⟩
      | none => ⟨Decision.SKIPPED, round, query⟩
  | none => ⟨Decision.SKIPPED, round, query⟩

/-- Modelled from the spec: the per-segment matching loop. `fuel` is the
number of REFINE transitions still allowed (`cap - round` at entry);
each level retrieves candidates for the current query, consults the
oracle (with one retry on transient failure), and either terminates, or
recurses on REFINE, or — when the budget is exhausted — makes the single
forced-decision call on the last Candidate Set. -/
def matchLoop (search : String → List Asset) (oracle : Oracle)
    (seg : Segment) : Nat → Nat → String → TentativeDecision
  | 0, round, query =>
    match consult oracle seg query (search query) round false with
    | none => ⟨Decision.SKIPPED, round, query⟩
    | some Verdict.SKIP => ⟨Decision.SKIPPED, round, query⟩
    | some (Verdict.SELECT a) =>
        if a ∈ (search query).map Asset.id then
          ⟨Decision.SELECTED a, round, query⟩
        else ⟨Decision.SKIPPED, round, query⟩
    | some (Verdict.REFINE _) =>
        forcedDecision oracle seg query (search query) round
  | fuel2 + 1, round, query =>
    match consult oracle seg query (search query) round false with
    | none => ⟨Decision.SKIPPED, round, query⟩
    | some Verdict.SKIP => ⟨Decision.SKIPPED, round, query⟩
    | some (Verdict.SELECT a) =>
        if a ∈ (search query).map Asset.id then
          ⟨Decision.SELECTED a, round, query⟩
        else ⟨Decision.SKIPPED, round, query⟩
    | some (Verdict.REFINE q2) =>
        matchLoop search oracle seg fuel2 (round + 1) q2

/-- Modelled from the spec: the initial query is derived from the
segment's text and context. -/
def initQuery (seg : Segment) : String := seg.text ++ " " ++ seg.context

/-- Modelled from the spec: the Segment Matcher starts in
`SEARCHING(1, initQuery)` with a budget of `cap` rounds. -/
def matchSegment (search : String → List Asset) (oracle : Oracle)
    (seg : Segment) (cap : Nat) : TentativeDecision :=
  matchLoop search oracle seg (cap - 1) 1 (initQuery seg)

/-- Modelled from the spec: an oracle family that always answers REFINE in
normal rounds (with a round-indexed suggested query `f`) and behaves as
`g` in forced-decision mode; used to state the forced-termination
property. -/
def refineOracle (f : Nat → String) (g : Oracle) : Oracle :=
  fun c => if c.forced then g c else some (Verdict.REFINE (f c.round))

/-- The query whose retrieval produced the last Candidate Set when every
normal round answered REFINE with suggested queries `f`: the initial
query when `cap ≤ 1`, otherwise the query suggested at round `cap - 1`. -/
def capQuery (f : Nat → String) (seg : Segment) (cap : Nat) : String :=
  if cap ≤ 1 then initQuery seg else f (cap - 1)

/-- A segment paired with its Tentative Decision: the input to the
Conflict Resolver. -/
structure SegResult where
  seg : Segment
  td : TentativeDecision
deriving DecidableEq, Repr

/-- Modelled from the spec: a Final Assignment `{segmentId, assetId | null}`
(the segment record is kept so the Timeline Assembler can order by
start). -/
structure FinalAssignment where
  seg : Segment
  assetId : Option String
deriving DecidableEq, Repr

/-- Modelled from the spec: the resolver's precedence preorder — fewer
rounds consumed first, then earlier segment start. -/
def precLE (x y : SegResult) : Prop :=
  x.td.rounds < y.td.rounds ∨
    (x.td.rounds = y.td.rounds ∧ x.seg.start ≤ y.seg.start)

/-- Strictly stronger precedence: strictly fewer rounds, or equal rounds
and strictly earlier start. -/
def precLT (x y : SegResult) : Prop :=
  x.td.rounds < y.td.rounds ∨
    (x.td.rounds = y.td.rounds ∧ x.seg.start < y.seg.start)

instance : DecidableRel precLE := fun x y => by unfold precLE; infer_instance

instance : DecidableRel precLT := fun x y => by unfold precLT; infer_instance

instance : IsTotal SegResult precLE := by
  constructor
  intro a b
  unfold precLE
  rcases Nat.lt_trichotomy a.td.rounds b.td.rounds with h | h | h
  · exact Or.inl (Or.inl h)
  · rcases le_total a.seg.start b.seg.start with hs | hs
    · exact Or.inl (Or.inr ⟨h, hs⟩)
    · exact Or.inr (Or.inr ⟨h.symm, hs⟩)
  · exact Or.inr (Or.inl h)

instance : IsTrans SegResult precLE := by
  constructor
  intro a b c hab hbc
  unfold precLE at hab hbc ⊢
  rcases hab with h1 | ⟨h1, h1s⟩ <;> rcases hbc with h2 | ⟨h2, h2s⟩
  · exact Or.inl (by omega)
  · exact Or.inl (by omega)
  · exact Or.inl (by omega)
  · exact Or.inr ⟨by omega, h1s.trans h2s⟩

/-- Modelled from the spec: the claimants of asset `a` are the Tentative
Decisions with `SELECTED a`. -/
def claimants (results : List SegResult) (a : String) : List SegResult :=
  results.filter (fun r => decide (r.td.decision = Decision.SELECTED a))

/-- Modelled from the spec: the segment ids of the top `reuseLimit`
claimants of asset `a`, ranked by the precedence key (fewest rounds, then
earliest start; stable in original order on exact ties). -/
def keptIds (reuseLimit : Nat) (results : List SegResult) (a : String) :
    List Nat :=
  (((claimants results a).insertionSort precLE).take reuseLimit).map
    (fun r => r.seg.id)

/-- Modelled from the spec: a single claimant's Final Assignment — it
keeps its tentatively selected asset exactly when it ranks among the top
`reuseLimit` claimants; every other claimant (and every segment already
SKIPPED) gets a null assignment, never a substitute asset. -/
def resolveOne (reuseLimit : Nat) (results : List SegResult)
    (r : SegResult) : FinalAssignment :=
  match r.td.decision with
  | Decision.SKIPPED => ⟨r.seg, none⟩
  | Decision.SELECTED a =>
      if r.seg.id ∈ keptIds reuseLimit results a then ⟨r.seg, some a⟩
      else ⟨r.seg, none⟩

/-- Modelled from the spec: the Conflict Resolver is a pure single-pass
reducer over the complete set of Tentative Decisions. -/
def resolve (reuseLimit : Nat) (results : List SegResult) :
    List FinalAssignment :=
  results.map (resolveOne reuseLimit results)

/-- Modelled from the spec: an Edit Decision List entry
`{segmentId, start, end, assetId | null}`. -/
structure EDLEntry where
  segmentId : Nat
  start : ℚ
  endTime : ℚ
  assetId : Option String
deriving DecidableEq, Repr

/-- Ordering of Final Assignments by segment start, used by the Timeline
Assembler. -/
def startLE (x y : FinalAssignment) : Prop := x.seg.start ≤ y.seg.start

instance : DecidableRel startLE := fun x y => by unfold startLE; infer_instance

instance : IsTotal FinalAssignment startLE :=
  ⟨fun a b => le_total a.seg.start b.seg.start⟩

instance : IsTrans FinalAssignment startLE :=
  ⟨fun _ _ _ hab hbc => le_trans hab hbc⟩

/-- Serialization of one Final Assignment to its EDL entry. -/
def toEntry (fa : FinalAssignment) : EDLEntry :=
  ⟨fa.seg.id, fa.seg.start, fa.seg.endTime, fa.assetId⟩

/-- Modelled from the spec: the Timeline Assembler stably sorts Final
Assignments by segment start and serializes them to the EDL. -/
def assemble (fas : List FinalAssignment) : List EDLEntry :=
  (fas.insertionSort startLE).map toEntry

/-- Ordering of EDL entries by `start`. -/
def edlLE (x y : EDLEntry) : Prop := x.start ≤ y.start

/-- Modelled from the spec: the matching phase runs the Segment Matcher
over every input segment. -/
def matchAll (search : String → List Asset) (oracle : Oracle) (cap : Nat)
    (segs : List Segment) : List SegResult :=
  segs.map (fun s => ⟨s, matchSegment search oracle s cap⟩)

/-- Modelled from the spec: the full engine — matching, conflict
resolution, then timeline assembly. -/
def runPipeline (search : String → List Asset) (oracle : Oracle)
    (cap reuseLimit : Nat) (segs : List Segment) : List EDLEntry :=
  assemble (resolve reuseLimit (matchAll search oracle cap segs))

/-- From `App.jsx`: the backend's record of an uploaded video, held in the
`video` state (null until an upload succeeds). -/
structure VideoInfo where
  filename : String
deriving DecidableEq, Repr

/-- A file in the uploaded-images list or a browser file list. -/
structure UploadedFile where
  name : String
deriving DecidableEq, Repr

/-- From `App.jsx` line 261: `canStart={video && images.length > 0}`. -/
def canStart (video : Option VideoInfo) (images : List UploadedFile) :
    Bool :=
  video.isSome && decide (0 < images.length)

/-- From `WorkflowControl.jsx` line 4:
`isRunning = status?.status === 'running'`. -/
def isRunningStatus (status : Option String) : Bool :=
  status == some "running"

/-- From `WorkflowControl.jsx` lines 59-74: while running the component
renders the Stop button (no Start button, `none`); otherwise it renders
the Start button with `disabled = !canStart` (`some disabled`). -/
def startButton (status : Option String) (canStartFlag : Bool) :
    Option Bool :=
  if isRunningStatus status then none else some (!canStartFlag)

/-- The argument `FileUpload.jsx` passes to `onUpload`: either a single
file (possibly `undefined`, modelled as `none`, when the file list is
empty) or the whole file array. -/
inductive UploadArg where
  | one (f : Option UploadedFile)
  | many (fs : List UploadedFile)
deriving DecidableEq, Repr

/-- From `FileUpload.jsx` line 6:
`isUploading = uploadProgress !== null && uploadProgress !== undefined`. -/
def isUploading (uploadProgress : Option Nat) : Bool :=
  uploadProgress.isSome

/-- From `FileUpload.jsx` lines 8-17 (`handleDrop`): returns the argument
passed to `onUpload`, or `none` when no call is made. -/
def handleDrop (multiple : Bool) (uploadProgress : Option Nat)
    (droppedFiles : List UploadedFile) : Option UploadArg :=
  if isUploading uploadProgress then none
  else if multiple then some (UploadArg.many droppedFiles)
  else some (UploadArg.one droppedFiles.head?)

/-- From `FileUpload.jsx` lines 19-28 (`handleChange`): identical
dispatch to `handleDrop` (the input-value reset it additionally performs
does not affect the `onUpload` call). -/
def handleChange (multiple : Bool) (uploadProgress : Option Nat)
    (selectedFiles : List UploadedFile) : Option UploadArg :=
  if isUploading uploadProgress then none
  else if multiple then some (UploadArg.many selectedFiles)
  else some (UploadArg.one selectedFiles.head?)

/-- Concrete fixture: a first narrative segment. -/
def demoSeg1 : Segment := ⟨1, 0, 5, "We examined children", "clinic"⟩

/-- Concrete fixture: a second narrative segment. -/
def demoSeg2 : Segment := ⟨2, 6, 10, "We distributed rice", "food"⟩

/-- Concrete fixture: a third narrative segment. -/
def demoSeg3 : Segment := ⟨3, 11, 15, "We built walls", "construction"⟩

/-- Concrete fixture: a clinic image. -/
def demoAssetX : Asset := ⟨"X.jpg", "volunteer examines child in clinic"⟩

/-- Concrete fixture: a food-distribution image. -/
def demoAssetY : Asset := ⟨"Y.jpg", "families receiving bags of rice"⟩

/-- Concrete fixture: a retrieval function returning the same two
candidates for every query. -/
def demoSearch : String → List Asset := fun _ => [demoAssetX, demoAssetY]

/-- Concrete fixture: an oracle that answers REFINE (echoing its query)
on every call, even in forced mode. -/
def demoOracleRefine : Oracle := fun c => some (Verdict.REFINE c.query)

/-- Concrete fixture: an oracle that always SELECTs an asset that no
retrieval ever returned. -/
def demoOracleSelectZ : Oracle := fun _ => some (Verdict.SELECT "Z.jpg")

/-- Concrete fixture: an oracle that fails (transient) on every call. -/
def demoOracleFail : Oracle := fun _ => none

/-- Concrete fixture: an oracle that always SELECTs the asset `X.jpg`
returned by `demoSearch`. -/
def demoOracleSelectX : Oracle := fun _ => some (Verdict.SELECT "X.jpg")

/-- Concrete fixture: a constant suggested-query function for the
REFINE-always oracle family. -/
def demoF : Nat → String := fun _ => "refined"

/-- Concrete fixture: a claimant of `X.jpg` decided in 1 round. -/
def demoR1 : SegResult := ⟨demoSeg1, ⟨Decision.SELECTED "X.jpg", 1, "q1"⟩⟩

/-- Concrete fixture: a claimant of `X.jpg` decided in 2 rounds. -/
def demoR2 : SegResult := ⟨demoSeg2, ⟨Decision.SELECTED "X.jpg", 2, "q2"⟩⟩

/-- Concrete fixture: a claimant of `X.jpg` decided in 3 rounds. -/
def demoR3 : SegResult := ⟨demoSeg3, ⟨Decision.SELECTED "X.jpg", 3, "q3"⟩⟩

/-- Concrete fixture: three segments whose Tentative Decisions all claim
the same asset, with distinct round counts. -/
def demoResults : List SegResult := [demoR1, demoR2, demoR3]

/-- The forced-decision call always records the round at which it was
made. -/
theorem forcedDecision_rounds (oracle : Oracle) (seg : Segment)
    (query : String) (cands : List Asset) (round : Nat) :
    (forcedDecision oracle seg query cands round).rounds = round := by
  unfold forcedDecision
  split
  · split <;> rfl
  · rfl
  · split <;> rfl
  · rfl

/-- The forced-decision call always records the query it was given. -/
theorem forcedDecision_finalQuery (oracle : Oracle) (seg : Segment)
    (query : String) (cands : List Asset) (round : Nat) :
    (forcedDecision oracle seg query cands round).finalQuery = query := by
  unfold forcedDecision
  split
  · split <;> rfl
  · rfl
  · split <;> rfl
  · rfl

/-- The round recorded by the loop never exceeds the entry round plus the
remaining fuel. -/
theorem matchLoop_rounds_le (search : String → List Asset) (oracle : Oracle)
    (seg : Segment) :
    ∀ fuel round query,
      (matchLoop search oracle seg fuel round query).rounds ≤ round + fuel := by
  intro fuel
  induction fuel with
  | zero =>
      intro round query
      unfold matchLoop
      split
      · simp
      · simp
      · split <;> simp
      · simp [forcedDecision_rounds]
  | succ fuel2 ih =>
      intro round query
      unfold matchLoop
      split
      · simp
      · simp
      · split <;> simp
      · exact le_trans (ih (round + 1) _) (by omega)

/-- A SELECTED decision from a forced-decision call names a member of the
candidate set that the call was given. -/
theorem forcedDecision_faithful (oracle : Oracle) (seg : Segment)
    (query : String) (cands : List Asset) (round : Nat) (a : String)
    (h : (forcedDecision oracle seg query cands round).decision =
      Decision.SELECTED a) :
    a ∈ cands.map Asset.id := by
  unfold forcedDecision at h
  split at h
  · split at h
    · rename_i b hb hmem
      simp at h
      exact h ▸ hmem
    · simp at h
  · simp at h
  · split at h
    · rename_i c hc
      simp at h
      subst h
      exact List.mem_map_of_mem Asset.id (List.mem_of_mem_head? (hc ▸ rfl))
    · simp at h
  · simp at h

/-- A SELECTED decision from the matching loop names a member of the
candidate set retrieved for the recorded final query. -/
theorem matchLoop_faithful (search : String → List Asset) (oracle : Oracle)
    (seg : Segment) :
    ∀ fuel round query a,
      (matchLoop search oracle seg fuel round query).decision =
        Decision.SELECTED a →
      a ∈ (search (matchLoop search oracle seg fuel round query).finalQuery).map
        Asset.id := by
  intro fuel
  induction fuel with
  | zero =>
      intro round query a
      unfold matchLoop
      split
      · intro h; simp at h
      · intro h; simp at h
      · split
        · rename_i b hb hmem
          intro h
          simp at h
          subst h
          simpa using hmem
        · intro h; simp at h
      · intro h
        rw [forcedDecision_finalQuery]
        exact forcedDecision_faithful oracle seg query (search query) round a h
  | succ fuel2 ih =>
      intro round query a
      unfold matchLoop
      split
      · intro h; simp at h
      · intro h; simp at h
      · split
        · rename_i b hb hmem
          intro h
          simp at h
          subst h
          simpa using hmem
        · intro h; simp at h
      · rename_i q2 hq2
        exact ih (round + 1) q2 a

/-- With an oracle that answers REFINE on every normal round, the loop
reaches the end of its budget and makes a single forced-decision call on
the candidate set retrieved for the last query. -/
theorem matchLoop_refine (search : String → List Asset) (f : Nat → String)
    (g : Oracle) (seg : Segment) :
    ∀ fuel round query,
      matchLoop search (refineOracle f g) seg fuel round query =
        forcedDecision (refineOracle f g) seg
          (if fuel = 0 then query else f (round + fuel - 1))
          (search (if fuel = 0 then query else f (round + fuel - 1)))
          (round + fuel) := by
  intro fuel
  induction fuel with
  | zero =>
      intro round query
      simp [matchLoop, consult, refineOracle]
  | succ fuel2 ih =>
      intro round query
      have h1 : matchLoop search (refineOracle f g) seg (fuel2 + 1) round
          query = matchLoop search (refineOracle f g) seg fuel2 (round + 1)
          (f round) := by
        simp [matchLoop, consult, refineOracle]
      rw [h1, ih]
      have hq : (if fuel2 = 0 then f round else f (round + 1 + fuel2 - 1)) =
          f (round + (fuel2 + 1) - 1) := by
        cases fuel2 with
        | zero => simp
        | succ n =>
            have he : round + 1 + (n + 1) - 1 = round + (n + 1 + 1) - 1 := by
              omega
            simp [he]
      have hr : round + 1 + fuel2 = round + (fuel2 + 1) := by omega
      rw [hq, hr]
      simp

/-- C1: For every retrieval function, oracle behavior, segment and
configured cap (≥ 1, default 3), the round counter recorded in the
segment's Tentative Decision by the Segment Matcher never exceeds the
cap. -/
theorem c1_round_bound (search : String → List Asset) (oracle : Oracle)
    (seg : Segment) (cap : Nat) (hcap : 1 ≤ cap) :
    (matchSegment search oracle seg cap).rounds ≤ cap := by
  have h := matchLoop_rounds_le search oracle seg (cap - 1) 1 (initQuery seg)
  unfold matchSegment
  omega

theorem c1_round_bound_witness :
    1 ≤ 3 ∧ (matchSegment demoSearch demoOracleRefine demoSeg1 3).rounds ≤ 3 :=
  ⟨by decide, c1_round_bound demoSearch demoOracleRefine demoSeg1 3 (by decide)⟩

/-- C2: For every oracle behavior the Matcher reaches a terminal decision
no later than round `cap`; and for an oracle that REFINEs on every normal
round (with arbitrary forced-mode behavior `g`, including REFINE again),
the result is exactly one forced-decision call on the Candidate Set of
the last query, recorded at round `cap` — the Matcher does not re-query
with the suggested refinement. -/
theorem c2_forced_termination (search : String → List Asset)
    (f : Nat → String) (g : Oracle) (oracle : Oracle) (seg : Segment)
    (cap : Nat) (hcap : 1 ≤ cap) :
    (matchSegment search oracle seg cap).rounds ≤ cap ∧
      matchSegment search (refineOracle f g) seg cap =
        forcedDecision (refineOracle f g) seg (capQuery f seg cap)
          (search (capQuery f seg cap)) cap := by
  refine ⟨?_, ?_⟩
  · have h := matchLoop_rounds_le search oracle seg (cap - 1) 1 (initQuery seg)
    unfold matchSegment
    omega
  · unfold matchSegment
    rw [matchLoop_refine]
    have hq : (if cap - 1 = 0 then initQuery seg else f (1 + (cap - 1) - 1)) =
        capQuery f seg cap := by
      unfold capQuery
      by_cases h1 : cap = 1
      · subst h1; simp
      · have h3 : ¬cap - 1 = 0 := by omega
        have h4 : ¬cap ≤ 1 := by omega
        have h5 : 1 + (cap - 1) - 1 = cap - 1 := by omega
        simp [h3, h4, h5]
    have hr : 1 + (cap - 1) = cap := by omega
    rw [hq, hr]

theorem c2_forced_termination_witness :
    (matchSegment demoSearch demoOracleRefine demoSeg1 3).rounds ≤ 3 ∧
      matchSegment demoSearch (refineOracle demoF demoOracleRefine) demoSeg1
          3 =
        forcedDecision (refineOracle demoF demoOracleRefine) demoSeg1
          (capQuery demoF demoSeg1 3)
          (demoSearch (capQuery demoF demoSeg1 3)) 3 :=
  c2_forced_termination demoSearch demoF demoOracleRefine demoOracleRefine
    demoSeg1 3 (by decide)

/-- C4: (a) whenever the Matcher's Tentative Decision is `SELECTED a`,
the asset `a` was a member of the Candidate Set retrieved for the
recorded final query — a set the oracle actually evaluated; (b) when the
oracle's first-round verdict SELECTs an asset `b` outside the current
Candidate Set, the Matcher substitutes `SKIPPED` (returning an ordinary
Tentative Decision, so no exception propagates). -/
theorem c4_candidate_faithfulness (search : String → List Asset)
    (oracle : Oracle) (seg : Segment) (cap : Nat) (a b : String) :
    ((matchSegment search oracle seg cap).decision = Decision.SELECTED a →
        a ∈ (search (matchSegment search oracle seg cap).finalQuery).map
          Asset.id) ∧
      (oracle ⟨seg, initQuery seg, search (initQuery seg), 1, false, 0⟩ =
          some (Verdict.SELECT b) →
        b ∉ (search (initQuery seg)).map Asset.id →
        matchSegment search oracle seg cap =
          ⟨Decision.SKIPPED, 1, initQuery seg⟩) := by
  constructor
  · exact matchLoop_faithful search oracle seg (cap - 1) 1 (initQuery seg) a
  · intro hsel hout
    have hc : consult oracle seg (initQuery seg) (search (initQuery seg)) 1
        false = some (Verdict.SELECT b) := by
      unfold consult
      rw [hsel]
    unfold matchSegment
    cases hf : cap - 1 <;> simp [matchLoop, hc, hout]

theorem c4_candidate_faithfulness_witness :
    "X.jpg" ∈
        (demoSearch
            (matchSegment demoSearch demoOracleSelectX demoSeg1 3).finalQuery).map
          Asset.id ∧
      matchSegment demoSearch demoOracleSelectZ demoSeg1 3 =
        ⟨Decision.SKIPPED, 1, initQuery demoSeg1⟩ :=
  ⟨(c4_candidate_faithfulness demoSearch demoOracleSelectX demoSeg1 3 "X.jpg"
        "X.jpg").1 (by decide),
    (c4_candidate_faithfulness demoSearch demoOracleSelectZ demoSeg1 3 "X.jpg"
        "Z.jpg").2 (by rfl) (by decide)⟩

/-- C7: In forced-decision mode, if the oracle nevertheless returns
REFINE, the Matcher overrides the verdict with SELECT of the first
candidate in retrieval rank order of the (re-presented) last Candidate
Set. -/
theorem c7_forced_refine_override (oracle : Oracle) (seg : Segment)
    (query q2 : String) (cands : List Asset) (round : Nat) (c : Asset)
    (hhead : cands.head? = some c)
    (href : consult oracle seg query cands round true =
      some (Verdict.REFINE q2)) :
    forcedDecision oracle seg query cands round =
      ⟨Decision.SELECTED c.id, round, query⟩ := by
  unfold forcedDecision
  rw [href]
  simp [hhead]

theorem c7_forced_refine_override_witness :
    forcedDecision demoOracleRefine demoSeg1 "s" [demoAssetX, demoAssetY] 3 =
      ⟨Decision.SELECTED demoAssetX.id, 3, "s"⟩ :=
  c7_forced_refine_override demoOracleRefine demoSeg1 "s" "s"
    [demoAssetX, demoAssetY] 3 demoAssetX (by rfl) (by rfl)

/-- C8: a transient oracle failure (modelled as `none`) on the original
attempt of any call causes exactly one retry of that same call; if the
retry of a round's consultation also fails, the loop's decision at that
round — in particular the Matcher's first round — is `SKIPPED`, returned
as an ordinary Tentative Decision rather than a propagated failure. -/
theorem c8_transient_retry (search : String → List Asset) (oracle : Oracle)
    (seg : Segment) (query : String) (cands : List Asset)
    (round fuel cap : Nat) (forced : Bool) :
    (oracle ⟨seg, query, cands, round, forced, 0⟩ = none →
        consult oracle seg query cands round forced =
          oracle ⟨seg, query, cands, round, forced, 1⟩) ∧
      (oracle ⟨seg, query, search query, round, false, 0⟩ = none →
        oracle ⟨seg, query, search query, round, false, 1⟩ = none →
        matchLoop search oracle seg fuel round query =
          ⟨Decision.SKIPPED, round, query⟩) ∧
      (oracle ⟨seg, initQuery seg, search (initQuery seg), 1, false, 0⟩ =
          none →
        oracle ⟨seg, initQuery seg, search (initQuery seg), 1, false, 1⟩ =
          none →
        matchSegment search oracle seg cap =
          ⟨Decision.SKIPPED, 1, initQuery seg⟩) := by
  refine ⟨?_, ?_, ?_⟩
  · intro h
    unfold consult
    rw [h]
  · intro h0 h1
    have hc : consult oracle seg query (search query) round false = none := by
      unfold consult
      rw [h0]
      exact h1
    cases fuel <;> simp [matchLoop, hc]
  · intro h0 h1
    have hc : consult oracle seg (initQuery seg) (search (initQuery seg)) 1
        false = none := by
      unfold consult
      rw [h0]
      exact h1
    unfold matchSegment
    cases hf : cap - 1 <;> simp [matchLoop, hc]

theorem c8_transient_retry_witness :
    consult demoOracleFail demoSeg1 "q" [] 2 false =
        demoOracleFail ⟨demoSeg1, "q", [], 2, false, 1⟩ ∧
      matchLoop demoSearch demoOracleFail demoSeg1 1 2 "q" =
        ⟨Decision.SKIPPED, 2, "q"⟩ ∧
      matchSegment demoSearch demoOracleFail demoSeg1 3 =
        ⟨Decision.SKIPPED, 1, initQuery demoSeg1⟩ :=
  ⟨(c8_transient_retry demoSearch demoOracleFail demoSeg1 "q" [] 2 1 3
        false).1 (by rfl),
    (c8_transient_retry demoSearch demoOracleFail demoSeg1 "q" [] 2 1 3
        false).2.1 (by rfl) (by rfl),
    (c8_transient_retry demoSearch demoOracleFail demoSeg1 "q" [] 2 1 3
        false).2.2 (by rfl) (by rfl)⟩

/-- Strict precedence is irreflexive. -/
theorem precLT_irrefl (x : SegResult) : ¬precLT x x := by
  unfold precLT
  intro h
  rcases h with h | ⟨_, h⟩
  · omega
  · exact lt_irrefl _ h

/-- Weak precedence of `x` over `y` excludes strict precedence of `y`
over `x`. -/
theorem precLE_precLT_asymm {x y : SegResult} (h1 : precLE x y)
    (h2 : precLT y x) : False := by
  unfold precLE at h1
  unfold precLT at h2
  rcases h1 with h1 | ⟨h1, h1s⟩ <;> rcases h2 with h2 | ⟨h2, h2s⟩
  · omega
  · omega
  · omega
  · exact absurd h1s (not_le.mpr h2s)

/-- Two claimants with distinct segment starts are strictly comparable
under the precedence key. -/
theorem precLT_comparable_of_start_ne {x y : SegResult}
    (h : x.seg.start ≠ y.seg.start) : precLT x y ∨ precLT y x := by
  unfold precLT
  rcases Nat.lt_trichotomy x.td.rounds y.td.rounds with h1 | h1 | h1
  · exact Or.inl (Or.inl h1)
  · rcases lt_or_gt_of_ne h with hs | hs
    · exact Or.inl (Or.inr ⟨h1, hs⟩)
    · exact Or.inr (Or.inr ⟨h1.symm, hs⟩)
  · exact Or.inr (Or.inl h1)

/-- In a precedence-sorted list of pairwise strictly comparable elements,
an element is among the first `k` exactly when fewer than `k` elements
strictly precede it. -/
theorem sorted_take_mem_iff :
    ∀ s : List SegResult, s.Sorted precLE →
      (∀ x ∈ s, ∀ y ∈ s, x ≠ y → precLT x y ∨ precLT y x) →
      ∀ x ∈ s, ∀ k,
        (x ∈ s.take k ↔ s.countP (fun z => decide (precLT z x)) < k) := by
  intro s
  induction s with
  | nil =>
      intro _ _ x hx
      cases hx
  | cons y t ih =>
      intro hs hdist x hx k
      have hsort_t : t.Sorted precLE := hs.of_cons
      have hyLE : ∀ z ∈ t, precLE y z := List.rel_of_sorted_cons hs
      have hdist_t : ∀ u ∈ t, ∀ v ∈ t, u ≠ v → precLT u v ∨ precLT v u :=
        fun u hu v hv => hdist u (List.mem_cons_of_mem _ hu) v
          (List.mem_cons_of_mem _ hv)
      by_cases hxy : x = y
      · subst hxy
        have hcnt : (x :: t).countP (fun z => decide (precLT z x)) = 0 := by
          rw [List.countP_eq_zero]
          intro z hz
          simp only [decide_eq_true_eq]
          rcases List.mem_cons.mp hz with rfl | hzt
          · exact precLT_irrefl z
          · exact fun hlt => precLE_precLT_asymm (hyLE z hzt) hlt
        rw [hcnt]
        cases k with
        | zero => simp
        | succ k2 => simp [List.take_succ_cons]
      · have hxt : x ∈ t := by
          rcases List.mem_cons.mp hx with h | h
          · exact absurd h hxy
          · exact h
        have hyx : precLT y x := by
          rcases hdist y (List.mem_cons_self y t) x hx
              (fun he => hxy he.symm) with h | h
          · exact h
          · exact absurd h (fun hlt => precLE_precLT_asymm (hyLE x hxt) hlt)
        have hcnt : (y :: t).countP (fun z => decide (precLT z x)) =
            t.countP (fun z => decide (precLT z x)) + 1 := by
          rw [List.countP_cons]
          simp [hyx]
        rw [hcnt]
        cases k with
        | zero => simp
        | succ k2 =>
            rw [List.take_succ_cons]
            constructor
            · intro hmem
              rcases List.mem_cons.mp hmem with h | h
              · exact absurd h hxy
              · have := (ih hsort_t hdist_t x hxt k2).mp h
                omega
            · intro hlt
              exact List.mem_cons_of_mem _
                ((ih hsort_t hdist_t x hxt k2).mpr (by omega))

/-- A non-null Final Assignment produced by `resolveOne` carries the
claimant's own tentatively selected asset and places its segment id
among the kept ids. -/
theorem resolveOne_some (reuseLimit : Nat) (results : List SegResult)
    (r : SegResult) (a : String)
    (h : (resolveOne reuseLimit results r).assetId = some a) :
    r.td.decision = Decision.SELECTED a ∧
      r.seg.id ∈ keptIds reuseLimit results a := by
  unfold resolveOne at h
  cases hd : r.td.decision with
  | SKIPPED =>
      rw [hd] at h
      simp at h
  | SELECTED b =>
      rw [hd] at h
      by_cases hm : r.seg.id ∈ keptIds reuseLimit results b
      · simp [hm] at h
        subst h
        exact ⟨rfl, hm⟩
      · simp [hm] at h

/-- For a claimant of asset `a`, `resolveOne` reduces to the kept-ids
membership test. -/
theorem resolveOne_eq (reuseLimit : Nat) (results : List SegResult)
    (r : SegResult) (a : String)
    (hd : r.td.decision = Decision.SELECTED a) :
    resolveOne reuseLimit results r =
      if r.seg.id ∈ keptIds reuseLimit results a then ⟨r.seg, some a⟩
      else ⟨r.seg, none⟩ := by
  unfold resolveOne
  rw [hd]

/-- Membership of a claimant's id among the kept ids is exactly the
counted-precedence condition: fewer than `reuseLimit` claimants strictly
precede it. -/
theorem kept_iff (reuseLimit : Nat) (results : List SegResult) (a : String)
    (r : SegResult)
    (hn : (results.map (fun s => s.seg.id)).Nodup)
    (hdist : ∀ x ∈ claimants results a, ∀ y ∈ claimants results a,
      x ≠ y → precLT x y ∨ precLT y x)
    (hr : r ∈ claimants results a) :
    (r.seg.id ∈ keptIds reuseLimit results a ↔
      (claimants results a).countP (fun z => decide (precLT z r)) <
        reuseLimit) := by
  have hperm : List.Perm ((claimants results a).insertionSort precLE)
      (claimants results a) := List.perm_insertionSort precLE _
  have hsorted : ((claimants results a).insertionSort precLE).Sorted precLE :=
    List.sorted_insertionSort precLE _
  have hdist_s : ∀ x ∈ (claimants results a).insertionSort precLE,
      ∀ y ∈ (claimants results a).insertionSort precLE,
      x ≠ y → precLT x y ∨ precLT y x :=
    fun x hx y hy => hdist x (hperm.mem_iff.mp hx) y (hperm.mem_iff.mp hy)
  have hr_s : r ∈ (claimants results a).insertionSort precLE :=
    hperm.mem_iff.mpr hr
  have hmain := sorted_take_mem_iff _ hsorted hdist_s r hr_s reuseLimit
  rw [hperm.countP_eq] at hmain
  rw [← hmain]
  unfold keptIds
  constructor
  · intro hx
    rcases List.mem_map.mp hx with ⟨x, hxmem, hxid⟩
    have hx_res : x ∈ results :=
      (List.mem_filter.mp (hperm.mem_iff.mp (List.mem_of_mem_take hxmem))).1
    have hr_res : r ∈ results := (List.mem_filter.mp hr).1
    have hxr : x = r :=
      List.inj_on_of_nodup_map hn hx_res hr_res hxid
    exact hxr ▸ hxmem
  · intro hx
    exact List.mem_map_of_mem _ hx

/-- C3: For every run and every asset id `a`, at most `reuseLimit` of the
Final Assignments produced by the Conflict Resolver carry `a` (segment
ids are unique, as the data model guarantees). -/
theorem c3_injectivity (reuseLimit : Nat) (results : List SegResult)
    (a : String) (hn : (results.map (fun r => r.seg.id)).Nodup) :
    (resolve reuseLimit results).countP
      (fun fa => decide (fa.assetId = some a)) ≤ reuseLimit := by
  unfold resolve
  rw [List.countP_map, List.countP_eq_length_filter]
  have hsub : ((results.filter fun r =>
      decide ((resolveOne reuseLimit results r).assetId = some a)).map
        (fun r => r.seg.id)) ⊆ keptIds reuseLimit results a := by
    intro x hx
    rcases List.mem_map.mp hx with ⟨r, hr, hxe⟩
    have hP := (List.mem_filter.mp hr).2
    have hsome := resolveOne_some reuseLimit results r a
      (by simpa using hP)
    exact hxe ▸ hsome.2
  have hnodup : ((results.filter fun r =>
      decide ((resolveOne reuseLimit results r).assetId = some a)).map
        (fun r => r.seg.id)).Nodup :=
    List.Nodup.sublist (List.Sublist.map _ (List.filter_sublist results)) hn
  have hle := (List.subperm_of_subset hnodup hsub).length_le
  rw [List.length_map] at hle
  have hk : (keptIds reuseLimit results a).length ≤ reuseLimit := by
    unfold keptIds
    rw [List.length_map]
    exact List.length_take_le _ _
  calc (results.filter fun r =>
        decide ((resolveOne reuseLimit results r).assetId = some a)).length
      ≤ (keptIds reuseLimit results a).length := hle
    _ ≤ reuseLimit := hk

theorem c3_injectivity_witness :
    (demoResults.map (fun r => r.seg.id)).Nodup ∧
      (resolve 1 demoResults).countP
        (fun fa => decide (fa.assetId = some "X.jpg")) ≤ 1 :=
  ⟨by decide, c3_injectivity 1 demoResults "X.jpg" (by decide)⟩

/-- C5: For a claimant `r` of asset `a` (segment ids unique, segment
starts pairwise distinct as the data model guarantees): (i) `r` keeps the
asset in its Final Assignment exactly when fewer than `reuseLimit`
claimants strictly precede it under the fewest-rounds-then-earliest-start
precedence — so precisely the top `reuseLimit` claimants keep it;
(ii) every other outcome is a null assignment (SKIPPED), never a
substituted asset; (iii) the only asset the resolver can assign `r` is
the one its own Tentative Decision already references; (iv) the segment
itself passes through unchanged (the resolver, a pure function of the
Tentative Decisions, performs no re-query). -/
theorem c5_conflict_precedence (reuseLimit : Nat) (results : List SegResult)
    (r : SegResult) (a : String)
    (hn : (results.map (fun s => s.seg.id)).Nodup)
    (hdist : results.Pairwise (fun x y => x.seg.start ≠ y.seg.start))
    (hr : r ∈ results) (hd : r.td.decision = Decision.SELECTED a) :
    ((resolveOne reuseLimit results r).assetId = some a ↔
        (claimants results a).countP (fun z => decide (precLT z r)) <
          reuseLimit) ∧
      ((resolveOne reuseLimit results r).assetId = some a ∨
        (resolveOne reuseLimit results r).assetId = none) ∧
      (∀ b, (resolveOne reuseLimit results r).assetId = some b → b = a) ∧
      (resolveOne reuseLimit results r).seg = r.seg := by
  have hstart : ∀ x ∈ results, ∀ y ∈ results, x ≠ y →
      x.seg.start ≠ y.seg.start :=
    fun x hx y hy hxy =>
      List.Pairwise.forall (fun u v h => Ne.symm h) hdist hx hy hxy
  have hcmp : ∀ x ∈ claimants results a, ∀ y ∈ claimants results a,
      x ≠ y → precLT x y ∨ precLT y x := by
    intro x hx y hy hxy
    have hx_res : x ∈ results := (List.mem_filter.mp hx).1
    have hy_res : y ∈ results := (List.mem_filter.mp hy).1
    exact precLT_comparable_of_start_ne (hstart x hx_res y hy_res hxy)
  have hr_claim : r ∈ claimants results a :=
    List.mem_filter.mpr ⟨hr, by simp [hd]⟩
  have hkept := kept_iff reuseLimit results a r hn hcmp hr_claim
  rw [resolveOne_eq reuseLimit results r a hd]
  by_cases hm : r.seg.id ∈ keptIds reuseLimit results a
  · rw [if_pos hm]
    refine ⟨⟨fun _ => hkept.mp hm, fun _ => rfl⟩, Or.inl rfl, ?_, rfl⟩
    intro b hb
    have hb2 : some a = some b := hb
    exact (Option.some.inj hb2).symm
  · rw [if_neg hm]
    refine ⟨⟨fun hfalse => ?_, fun hcnt => ?_⟩, Or.inr rfl, ?_, rfl⟩
    · simp at hfalse
    · exact absurd (hkept.mpr hcnt) hm
    · intro b hb
      simp at hb

theorem c5_conflict_precedence_witness :
    ((resolveOne 1 demoResults demoR1).assetId = some "X.jpg" ↔
        (claimants demoResults "X.jpg").countP
          (fun z => decide (precLT z demoR1)) < 1) ∧
      ((resolveOne 1 demoResults demoR1).assetId = some "X.jpg" ∨
        (resolveOne 1 demoResults demoR1).assetId = none) ∧
      (∀ b, (resolveOne 1 demoResults demoR1).assetId = some b →
        b = "X.jpg") ∧
      (resolveOne 1 demoResults demoR1).seg = demoR1.seg :=
  c5_conflict_precedence 1 demoResults demoR1 "X.jpg" (by decide) (by decide)
    (by decide) (by decide)

/-- C6: For every retrieval function, oracle behavior, cap, reuse limit
and input segment list, the emitted Edit Decision List has exactly one
entry per input segment and is sorted by segment start ascending. -/
theorem c6_edl_order (search : String → List Asset) (oracle : Oracle)
    (cap reuseLimit : Nat) (segs : List Segment) :
    (runPipeline search oracle cap reuseLimit segs).length = segs.length ∧
      (runPipeline search oracle cap reuseLimit segs).Sorted edlLE := by
  constructor
  · unfold runPipeline assemble
    rw [List.length_map, (List.perm_insertionSort startLE _).length_eq]
    unfold resolve matchAll
    rw [List.length_map, List.length_map]
  · unfold runPipeline assemble
    exact List.Pairwise.map toEntry (fun x y h => h)
      (List.sorted_insertionSort startLE _)

/-- C9: In every UI state with no uploaded video or an empty image list,
`App` computes `canStart = false`, and the Start Workflow button rendered
by `WorkflowControl` is never an enabled Start button — so the workflow
cannot be started through the button. -/
theorem c9_start_gating (status : Option String) (video : Option VideoInfo)
    (images : List UploadedFile) (h : video = none ∨ images = []) :
    canStart video images = false ∧
      startButton status (canStart video images) ≠ some false := by
  have hc : canStart video images = false := by
    rcases h with h | h
    · subst h
      simp [canStart]
    · subst h
      simp [canStart]
  refine ⟨hc, ?_⟩
  rw [hc]
  unfold startButton
  by_cases hr : isRunningStatus status
  · simp [hr]
  · simp [hr]

theorem c9_start_gating_witness :
    canStart none [] = false ∧
      startButton none (canStart none []) ≠ some false :=
  c9_start_gating none none [] (Or.inl rfl)

/-- C10: `FileUpload` with `multiple = false` passes only the first of
the dropped/selected files to `onUpload` (discarding the rest); with
`multiple = true` it passes the whole array; and while an upload is in
progress (`uploadProgress` set) neither handler invokes `onUpload` at
all. -/
theorem c10_file_upload_dispatch (f : UploadedFile)
    (fs files : List UploadedFile) (m : Bool) (p : Nat) :
    handleDrop false none (f :: fs) = some (UploadArg.one (some f)) ∧
      handleChange false none (f :: fs) = some (UploadArg.one (some f)) ∧
      handleDrop true none files = some (UploadArg.many files) ∧
      handleChange true none files = some (UploadArg.many files) ∧
      handleDrop m (some p) files = none ∧
      handleChange m (some p) files = none := by
  refine ⟨rfl, rfl, rfl, rfl, ?_, ?_⟩ <;>
    simp [handleDrop, handleChange, isUploading]

end Broll
